import Mathlib

/-!
Verification of the simple-nodemailer sources against their natural-language
specification.  The JavaScript sources are shallowly embedded: strings stay
strings (or lists of characters for the byte pipeline), object mutation
becomes explicit state passing, and every callback outcome is recorded in an
explicit state field.  Each definition mirrors one function of the source
tree; the theorems at the end of the file settle the specification claims.
-/

/-! ### Address parser (src/addressparser.js) -/

/-- Character class of the JavaScript whitespace escape used both by
`String.prototype.trim` and by the `\s` class of the bare-address regular
expression in `_handleAddress`. -/
def jsWhitespace (c : Char) : Bool :=
  c = ' ' || c = '\t' || c = '\n' || c = '\r' ||
  c.toNat = 0x0B || c.toNat = 0x0C || c.toNat = 0xA0 || c.toNat = 0x1680 ||
  (0x2000 ≤ c.toNat && c.toNat ≤ 0x200A) ||
  c.toNat = 0x2028 || c.toNat = 0x2029 || c.toNat = 0x202F ||
  c.toNat = 0x205F || c.toNat = 0x3000 || c.toNat = 0xFEFF

/-- JavaScript `String.prototype.trim`: strip whitespace from both ends. -/
def jsTrim (s : String) : String :=
  String.mk (((s.data.dropWhile jsWhitespace).reverse.dropWhile jsWhitespace).reverse)

/-- The test of the regular expression `/^[^@\s]+@[^@\s]+$/` used by
`_handleAddress` to recognize a bare `local@domain` token: exactly one `@`,
not at either end, and no whitespace anywhere. -/
def isBareAddressTxt (s : String) : Bool :=
  let cs := s.data
  cs ≠ [] && cs.count '@' = 1 && cs.head? ≠ some '@' && cs.getLast? ≠ some '@' &&
  cs.all (fun c => !jsWhitespace c)

/-- `Tokenizer.tokenize` of src/addressparser.js.  `checkChar` appends every
input character to one single text node (this simplified tokenizer has no
operator handling at all), so the token list is the whole input as one node,
which is then trimmed and dropped when empty. -/
def tokenizeTokens (str : String) : List String :=
  (if str.data = [] then [] else [jsTrim str]).filter (fun v => v ≠ "")

/-- One record of the parser output: `{name, address}`. -/
structure AddressRec where
  name : String
  address : String
deriving DecidableEq

/-- Scan a token list from its end for the first token accepted by
`isBareAddressTxt`, removing it; mirrors the backwards `for` loop with
`splice` in `_handleAddress` (the input list is given reversed). -/
def extractBareRev : List String → Option (String × List String)
  | [] => none
  | t :: rest =>
    if isBareAddressTxt t then some (t, rest)
    else
      match extractBareRev rest with
      | some (a, rest2) => some (a, t :: rest2)
      | none => none

/-- Forward-order wrapper for `extractBareRev`. -/
def extractBare (l : List String) : Option (String × List String) :=
  match extractBareRev l.reverse with
  | some (a, r) => some (a, r.reverse)
  | none => none

/-- `_handleAddress` of src/addressparser.js.  Every token is in state
`text` (the tokenizer produces no operators), `data.address` starts empty, a
bare address is detected from the trailing text tokens, values are joined
with spaces, and the name is cleared when it equals the address. -/
def handleAddress (tokens : List String) : List AddressRec :=
  let split :=
    match extractBare tokens with
    | some (a, rest) => ([a], rest)
    | none => (([] : List String), tokens)
  let addrJ := String.intercalate " " split.1
  let textJ := String.intercalate " " split.2
  let addr := if addrJ ≠ "" then addrJ else if textJ ≠ "" then textJ else ""
  let nm := if textJ ≠ "" then textJ else if addrJ ≠ "" then addrJ else ""
  let nm2 := if addr = nm then "" else nm
  [⟨nm2, addr⟩]

/-- `addressparser` of src/addressparser.js: all tokens are pushed into one
single `address` group (there is no comma handling), so the whole token list
is handed to `_handleAddress` once; an empty token list yields no records. -/
def addressparser (str : String) : List AddressRec :=
  let tokens := tokenizeTokens str
  if tokens = [] then [] else handleAddress tokens

/-! ### Claims C9 and C10 -/

/-- Claim C9 counterexample: the input `a@x.com, b@y.com` holds two
comma-separated address entries, yet the parser returns a single record (the
whole text as the address), not one record per entry. -/
theorem c9_counterexample :
    (addressparser "a@x.com, b@y.com").length = 1 ∧
    addressparser "a@x.com, b@y.com" = [⟨"", "a@x.com, b@y.com"⟩] ∧
    ¬ (addressparser "a@x.com, b@y.com").length = 2 := by
  refine ⟨by decide, by decide, by decide⟩

/-- Claim C9 (amended): the tokenizer performs no comma splitting, so for
every input whose trimmed text is nonempty the parser returns exactly one
record, regardless of how many comma-separated entries the input holds. -/
theorem c9_theorem (s : String) (h : jsTrim s ≠ "") :
    (addressparser s).length = 1 := by
  have hs : s.data ≠ [] := by
    intro hnil
    apply h
    cases s with
    | mk data =>
      cases data with
      | nil => rfl
      | cons c cs => cases hnil
  have ht : tokenizeTokens s = [jsTrim s] := by
    unfold tokenizeTokens
    rw [if_neg hs]
    simp [List.filter, h]
  unfold addressparser
  rw [ht]
  rw [if_neg (by simp : ¬([jsTrim s] = []))]
  unfold handleAddress
  split <;> rfl

/-- Claim C9 witness: the concrete two-entry input satisfies the hypothesis
and the parser returns one record. -/
theorem c9_witness :
    jsTrim "a@x.com, b@y.com" ≠ "" ∧ (addressparser "a@x.com, b@y.com").length = 1 :=
  ⟨by decide, c9_theorem "a@x.com, b@y.com" (by decide)⟩

/-- Claim C10 counterexample: `Jane Doe <jane@example.com>` does not parse
to `{name: "Jane Doe", address: "jane@example.com"}`; the tokenizer has no
angle-bracket handling, so the whole text becomes the address and the name
is cleared. -/
theorem c10_counterexample :
    addressparser "Jane Doe <jane@example.com>" = [⟨"", "Jane Doe <jane@example.com>"⟩] ∧
    addressparser "Jane Doe <jane@example.com>" ≠ [⟨"Jane Doe", "jane@example.com"⟩] := by
  refine ⟨by decide, by decide⟩

/-- Claim C10 (amended): the parser maps `Jane Doe <jane@example.com>` to
the single record `{name: "", address: "Jane Doe <jane@example.com>"}` (no
angle-bracket extraction happens), and maps `jane@example.com` to the single
record `{name: "", address: "jane@example.com"}`. -/
theorem c10_theorem :
    addressparser "Jane Doe <jane@example.com>" = [⟨"", "Jane Doe <jane@example.com>"⟩] ∧
    addressparser "jane@example.com" = [⟨"", "jane@example.com"⟩] := by
  refine ⟨by decide, by decide⟩

/-! ### SMTP connection state machine (src/smtp-connection.js)

The connection object is embedded as an explicit state record.  Server
replies drive the FIFO queue `responseActions` exactly as `_processResponse`
does: one handler is popped per reply and invoked on the reply text.  Socket
writes become entries of `sentCommands`; each callback outcome is stored in
a dedicated state field.  Socket-level events (errors, timeouts, closes) are
never raised by the embedded handlers, matching the source where `_onError`
is reachable only from socket listeners. -/

/-- UTF-8 encoding of one character, modelling `Buffer.from(str, 'utf-8')`. -/
def utf8c (c : Char) : List Nat :=
  let n := c.toNat
  if n < 0x80 then [n]
  else if n < 0x800 then [0xC0 + n / 64, 0x80 + n % 64]
  else if n < 0x10000 then [0xE0 + n / 4096, 0x80 + n / 64 % 64, 0x80 + n % 64]
  else [0xF0 + n / 262144, 0x80 + n / 4096 % 64, 0x80 + n / 64 % 64, 0x80 + n % 64]

/-- UTF-8 byte sequence of a string. -/
def utf8Bytes (s : String) : List Nat := (s.data.map utf8c).flatten

/-- The base64 alphabet. -/
def b64Alphabet : List Char :=
  "ABCDEFGHIJKLMNOPQRSTUVWXYZabcdefghijklmnopqrstuvwxyz0123456789+/".data

/-- Digit of the base64 alphabet. -/
def b64Char (n : Nat) : Char := b64Alphabet.getD n 'A'

/-- Standard base64 with `=` padding, modelling `Buffer.toString('base64')`. -/
def b64Encode : List Nat → String
  | [] => ""
  | [a] => String.mk [b64Char (a / 4), b64Char (a % 4 * 16), '=', '=']
  | [a, b] =>
    String.mk [b64Char (a / 4), b64Char (a % 4 * 16 + b / 16), b64Char (b % 16 * 4), '=']
  | a :: b :: c :: rest =>
    String.mk [b64Char (a / 4), b64Char (a % 4 * 16 + b / 16),
      b64Char (b % 16 * 4 + c / 64), b64Char (c % 64)] ++ b64Encode rest

/-- The handlers that `smtp-connection.js` pushes onto `_responseActions`,
one constructor per `_action*` method. -/
inductive SmtpAction where
  | greeting
  | ehlo
  | mail
  | rcpt
  | dataAct
  | authComplete
  | smtpStream
deriving DecidableEq

/-- The mutable state of one `SMTPConnection` instance, restricted to the
fields the embedded handlers read or write.  Callback outcomes are recorded
in `sendResult` (the `_setEnvelope` callback, fired by `_actionDATA`),
`authCallback` (the `login` callback), and `streamResult` (the
`_createSendStream` callback). -/
structure ConnState where
  name : String
  maxAllowedSize : Nat
  rcptQueue : List String
  recipientQueue : List String
  accepted : List String
  rejected : List String
  rejectedErrors : List String
  responseActions : List SmtpAction
  sentCommands : List String
  sendResult : Option (List String × List String)
  authenticated : Bool
  authCallback : Option Bool
  streamResult : Option String
  connectEmitted : Bool
  errorCode : Option String
deriving DecidableEq

/-- Constructor defaults of `SMTPConnection`. -/
def initConn (name : String) : ConnState :=
  ⟨name, 0, [], [], [], [], [], [], [], none, false, none, none, false, none⟩

/-- `_sendCommand`: append one command line to the socket write log. -/
def sendCommand (s : ConnState) (cmd : String) : ConnState :=
  { s with sentCommands := s.sentCommands ++ [cmd] }

/-- `_getDsnRcptToArgs`: the `args` list is always empty in the source, so
the suffix is always the empty string. -/
def getDsnRcptToArgs : String := ""

/-- The `while` loop of `_actionMAIL`: shift each queued recipient, remember
it in `recipientQueue`, push one `_actionRCPT` handler and write one
`RCPT TO` command, in submission order. -/
def mailLoop (queue : List String) (s : ConnState) : ConnState :=
  match queue with
  | [] => s
  | r :: rest =>
    mailLoop rest
      (sendCommand
        { s with recipientQueue := s.recipientQueue ++ [r],
                 responseActions := s.responseActions ++ [.rcpt] }
        ("RCPT TO:<" ++ r ++ ">" ++ getDsnRcptToArgs))

/-- Dispatch of one popped handler on one server reply, one match arm per
`_action*` method of the source:
`_actionGreeting` never inspects the reply and always issues `EHLO`;
`_actionEHLO` emits the `connect` event (its capability regexes touch no
state any claim depends on, beside `maxAllowedSize` which is quantified
over);
`_actionMAIL` ignores the reply and drains the recipient queue;
`_actionRCPT` ignores the reply code, records the shifted recipient as
accepted and writes `DATA` (on an empty queue the source would push the
JavaScript value `undefined`; that branch is unreachable in every run
considered here and leaves `accepted` unchanged);
`_actionDATA` fires the envelope callback with the accepted and rejected
lists (the surrounding `send` guard keeps only the first outcome);
`_actionAUTHComplete` unconditionally marks the session authenticated and
reports success;
`_actionSMTPStream` hands the reply to the stream callback. -/
def applyAction (a : SmtpAction) (s : ConnState) (reply : String) : ConnState :=
  match a with
  | .greeting =>
    sendCommand { s with responseActions := s.responseActions ++ [.ehlo] } ("EHLO " ++ s.name)
  | .ehlo => { s with connectEmitted := true }
  | .mail => mailLoop s.rcptQueue { s with rcptQueue := [], recipientQueue := [] }
  | .rcpt =>
    match s.recipientQueue with
    | r :: rest =>
      sendCommand
        { s with recipientQueue := rest, accepted := s.accepted ++ [r],
                 responseActions := s.responseActions ++ [.dataAct] } "DATA"
    | [] => sendCommand { s with responseActions := s.responseActions ++ [.dataAct] } "DATA"
  | .dataAct =>
    match s.sendResult with
    | some _ => s
    | none => { s with sendResult := some (s.accepted, s.rejected) }
  | .authComplete => { s with authenticated := true, authCallback := some true }
  | .smtpStream => { s with streamResult := some reply }

/-- `_processResponse` for one complete reply: shift one handler off the
FIFO queue and invoke it on the reply. -/
def processReply (s : ConnState) (reply : String) : ConnState :=
  match s.responseActions with
  | [] => s
  | a :: rest => applyAction a { s with responseActions := rest } reply

/-- Feed a sequence of complete server replies, one handler each. -/
def runReplies (s : ConnState) (replies : List String) : ConnState :=
  replies.foldl processReply s

/-- An SMTP envelope as handed to `send`.  The `size` field models a
declared message size riding on the envelope object; `_setEnvelope` never
reads it. -/
structure Envelope where
  efrom : String
  rcptTo : List String
  size : Nat
deriving DecidableEq

/-- `_setEnvelope`: reset the per-send recipient bookkeeping, push the
`_actionMAIL` handler and write `MAIL FROM` unconditionally — the source
contains no size check and its `args` list stays empty. -/
def setEnvelope (env : Envelope) (s : ConnState) : ConnState :=
  sendCommand
    { s with rcptQueue := env.rcptTo, rejected := [], rejectedErrors := [], accepted := [],
             responseActions := s.responseActions ++ [.mail] }
    ("MAIL FROM:<" ++ env.efrom ++ ">")

/-- The one command that `login` writes: SASL PLAIN with an empty
authorization identity, `base64(NUL ++ user ++ NUL ++ pass)`. -/
def authPlainCmd (user pass : String) : String :=
  "AUTH PLAIN " ++ b64Encode (utf8Bytes ("\x00" ++ user ++ "\x00" ++ pass))

/-- `login`: push the `_actionAUTHComplete` handler and write the single
`AUTH PLAIN` command. -/
def login (user pass : String) (s : ConnState) : ConnState :=
  sendCommand { s with responseActions := s.responseActions ++ [.authComplete] }
    (authPlainCmd user pass)

/-- The test `reply begins with the character 2` used by the specification
to classify greeting and authentication replies. -/
def beginsWith2 (s : String) : Bool :=
  match s.data with
  | c :: _ => c = '2'
  | [] => false

/-! ### Claims C1 to C5 -/

/-- Closed form of the `_actionMAIL` loop: for any queued recipients it
appends them to `recipientQueue`, pushes one `_actionRCPT` handler each and
writes the `RCPT TO` commands in submission order. -/
theorem mailLoop_spec (q : List String) (s : ConnState) :
    mailLoop q s =
      { s with recipientQueue := s.recipientQueue ++ q,
               responseActions := s.responseActions ++ List.replicate q.length .rcpt,
               sentCommands :=
                 s.sentCommands ++ q.map (fun r => "RCPT TO:<" ++ r ++ ">" ++ getDsnRcptToArgs) } := by
  induction q generalizing s with
  | nil => simp [mailLoop]
  | cons r rest ih =>
    cases s
    rw [mailLoop, ih]
    simp [sendCommand, List.replicate_succ]

/-- Behaviour of the RCPT phase: with `recipientQueue` holding the
recipients and the handler queue holding one `_actionRCPT` per recipient,
consuming one reply per recipient records every recipient as accepted
(whatever the reply codes), pushes one `_actionDATA` handler per reply and
writes one `DATA` command per reply. -/
theorem runReplies_cons (s : ConnState) (re : String) (res : List String) :
    runReplies s (re :: res) = runReplies (processReply s re) res := rfl

/-- Behaviour of the RCPT phase: with `recipientQueue` holding the
recipients and the handler queue holding one `_actionRCPT` per recipient,
consuming one reply per recipient records every recipient as accepted
(whatever the reply codes), pushes one `_actionDATA` handler per reply and
writes one `DATA` command per reply. -/
theorem rcptPhase (ts : List String) (replies : List String) (ds : List SmtpAction)
    (s : ConnState) (hlen : replies.length = ts.length)
    (hq : s.recipientQueue = ts)
    (ha : s.responseActions = List.replicate ts.length .rcpt ++ ds) :
    runReplies s replies =
      { s with recipientQueue := [],
               accepted := s.accepted ++ ts,
               responseActions := ds ++ List.replicate ts.length .dataAct,
               sentCommands := s.sentCommands ++ List.replicate ts.length "DATA" } := by
  induction ts generalizing replies ds s with
  | nil =>
    cases replies with
    | nil =>
      obtain ⟨nm, mx, rq, recq, acc, rej, rejE, ra, sent, sr, au, ac, st, ce, ec⟩ := s
      simp only at hq ha
      subst hq
      subst ha
      simp [runReplies]
    | cons re res => simp at hlen
  | cons t rest ih =>
    cases replies with
    | nil => simp at hlen
    | cons re res =>
      obtain ⟨nm, mx, rq, recq, acc, rej, rejE, ra, sent, sr, au, ac, st, ce, ec⟩ := s
      simp only at hq ha
      subst hq
      subst ha
      rw [runReplies_cons]
      rw [show List.replicate (t :: rest).length SmtpAction.rcpt ++ ds
            = SmtpAction.rcpt :: (List.replicate rest.length SmtpAction.rcpt ++ ds) by
          simp [List.replicate_succ]]
      simp only [processReply, applyAction, sendCommand]
      rw [ih res (ds ++ [SmtpAction.dataAct]) _ (by simpa using hlen) rfl
        (by simp [List.append_assoc])]
      simp [List.replicate_succ, List.append_assoc]

/-- Claim C1 counterexample: envelope `{from: a@x.com, to: [b@y.com,
bad@y.com]}` with replies `250` to the first `RCPT TO` and `550` to the
second ends with `accepted = [b@y.com, bad@y.com]` and `rejected = []`:
`_actionRCPT` never classifies the reply code, so the claimed outcome
`accepted = [b@y.com]`, `rejected = [bad@y.com]` is false. -/
theorem c1_counterexample :
    (runReplies (setEnvelope ⟨"a@x.com", ["b@y.com", "bad@y.com"], 0⟩ (initConn "client"))
        ["250 Ok", "250 Ok", "550 Mailbox unavailable"]).accepted = ["b@y.com", "bad@y.com"] ∧
    (runReplies (setEnvelope ⟨"a@x.com", ["b@y.com", "bad@y.com"], 0⟩ (initConn "client"))
        ["250 Ok", "250 Ok", "550 Mailbox unavailable"]).rejected = [] ∧
    ¬ ((runReplies (setEnvelope ⟨"a@x.com", ["b@y.com", "bad@y.com"], 0⟩ (initConn "client"))
          ["250 Ok", "250 Ok", "550 Mailbox unavailable"]).accepted = ["b@y.com"] ∧
       (runReplies (setEnvelope ⟨"a@x.com", ["b@y.com", "bad@y.com"], 0⟩ (initConn "client"))
          ["250 Ok", "250 Ok", "550 Mailbox unavailable"]).rejected = ["bad@y.com"]) := by
  refine ⟨by decide, by decide, by decide⟩

/-- Claim C1 (amended): for a send whose envelope has recipients `[r1, r2]`,
whatever the two `RCPT TO` reply codes are, both recipients are recorded in
`accepted`, the `rejected` list stays empty, the send proceeds to `DATA`
(one `DATA` command is written after each `RCPT TO` reply), and the envelope
callback reports `accepted = [r1, r2]`, `rejected = []`. -/
theorem c1_theorem (efrom r1 r2 m c1r c2r d : String) :
    (runReplies (setEnvelope ⟨efrom, [r1, r2], 0⟩ (initConn "client")) [m, c1r, c2r, d]).accepted
      = [r1, r2] ∧
    (runReplies (setEnvelope ⟨efrom, [r1, r2], 0⟩ (initConn "client")) [m, c1r, c2r, d]).rejected
      = [] ∧
    (runReplies (setEnvelope ⟨efrom, [r1, r2], 0⟩ (initConn "client")) [m, c1r, c2r, d]).sentCommands
      = ["MAIL FROM:<" ++ efrom ++ ">",
         "RCPT TO:<" ++ r1 ++ ">" ++ getDsnRcptToArgs,
         "RCPT TO:<" ++ r2 ++ ">" ++ getDsnRcptToArgs, "DATA", "DATA"] ∧
    (runReplies (setEnvelope ⟨efrom, [r1, r2], 0⟩ (initConn "client")) [m, c1r, c2r, d]).sendResult
      = some ([r1, r2], []) :=
  ⟨rfl, rfl, rfl, rfl⟩

/-- Claim C2 counterexample: with an advertised `SIZE` limit of `1000` and a
declared envelope size of `2000`, `_setEnvelope` still writes `MAIL FROM`
and raises no `EMESSAGE` error — the size check claimed by the spec does not
exist in the source. -/
theorem c2_counterexample :
    (Envelope.mk "a@x.com" ["b@y.com"] 2000).size >
      ({ initConn "client" with maxAllowedSize := 1000 } : ConnState).maxAllowedSize ∧
    (setEnvelope ⟨"a@x.com", ["b@y.com"], 2000⟩
        { initConn "client" with maxAllowedSize := 1000 }).errorCode = none ∧
    (setEnvelope ⟨"a@x.com", ["b@y.com"], 2000⟩
        { initConn "client" with maxAllowedSize := 1000 }).sentCommands
      = ["MAIL FROM:<a@x.com>"] := by
  refine ⟨by decide, by decide, by decide⟩

/-- Claim C2 (amended): `send` performs no size check at all — for every
envelope and every connection state (whatever the advertised `SIZE` limit
stored in `maxAllowedSize`), `_setEnvelope` raises no error, fires no
failure callback, and unconditionally writes the `MAIL FROM` command. -/
theorem c2_theorem (env : Envelope) (s : ConnState) :
    (setEnvelope env s).errorCode = s.errorCode ∧
    (setEnvelope env s).sendResult = s.sendResult ∧
    (setEnvelope env s).sentCommands = s.sentCommands ++ ["MAIL FROM:<" ++ env.efrom ++ ">"] :=
  ⟨rfl, rfl, rfl⟩

/-- Claim C3 counterexample: the greeting `554 shutting down` does not begin
with `2`, yet `_actionGreeting` still issues `EHLO` and raises no error —
the session continues, contradicting the claimed only-if direction. -/
theorem c3_counterexample :
    beginsWith2 "554 shutting down" = false ∧
    (processReply { initConn "client" with responseActions := [SmtpAction.greeting] }
        "554 shutting down").sentCommands = ["EHLO client"] ∧
    (processReply { initConn "client" with responseActions := [SmtpAction.greeting] }
        "554 shutting down").errorCode = none := by
  refine ⟨by decide, by decide, by decide⟩

/-- Claim C3 (amended): `_actionGreeting` never inspects the greeting text:
for every first server reply the session continues — `EHLO` is issued and
the `_actionEHLO` handler queued — and no protocol error terminates the
session, whether or not the reply begins with `2`. -/
theorem c3_theorem (nm reply : String) :
    (processReply { initConn nm with responseActions := [SmtpAction.greeting] } reply).sentCommands
      = ["EHLO " ++ nm] ∧
    (processReply { initConn nm with responseActions := [SmtpAction.greeting] } reply).responseActions
      = [SmtpAction.ehlo] ∧
    (processReply { initConn nm with responseActions := [SmtpAction.greeting] } reply).errorCode
      = none :=
  ⟨rfl, rfl, rfl⟩

/-- Claim C4 counterexample: the reply `535 Authentication failed` is not a
`2xx` reply, yet `_actionAUTHComplete` marks the session authenticated and
reports success to the login callback — the claimed failure path does not
exist. -/
theorem c4_counterexample :
    beginsWith2 "535 Authentication failed" = false ∧
    (processReply (login "user" "secret" (initConn "client"))
        "535 Authentication failed").authenticated = true ∧
    (processReply (login "user" "secret" (initConn "client"))
        "535 Authentication failed").authCallback = some true := by
  refine ⟨by decide, by decide, by decide⟩

/-- Claim C4 (amended): `login` sends exactly one `AUTH PLAIN` command whose
argument is the base64 encoding of `NUL ++ user ++ NUL ++ password` (empty
authorization identity), but for every server reply the login callback
reports success and the session is marked authenticated, whatever the reply
code. -/
theorem c4_theorem (user pass nm reply : String) :
    (login user pass (initConn nm)).sentCommands
      = ["AUTH PLAIN " ++ b64Encode (utf8Bytes ("\x00" ++ user ++ "\x00" ++ pass))] ∧
    (login user pass (initConn nm)).responseActions = [SmtpAction.authComplete] ∧
    (processReply (login user pass (initConn nm)) reply).authenticated = true ∧
    (processReply (login user pass (initConn nm)) reply).authCallback = some true :=
  ⟨rfl, rfl, rfl, rfl⟩

/-- Claim C5 counterexample: a send with two recipients writes the `DATA`
command twice (once per `RCPT TO` reply), not exactly once as claimed. -/
theorem c5_counterexample :
    ((runReplies (setEnvelope ⟨"a@x.com", ["b@y.com", "bad@y.com"], 0⟩ (initConn "client"))
        ["250 Ok", "250 Ok", "550 Mailbox unavailable"]).sentCommands.countP
          (fun c => c == "DATA")) = 2 ∧
    ¬ ((runReplies (setEnvelope ⟨"a@x.com", ["b@y.com", "bad@y.com"], 0⟩ (initConn "client"))
        ["250 Ok", "250 Ok", "550 Mailbox unavailable"]).sentCommands.countP
          (fun c => c == "DATA")) = 1 := by
  refine ⟨by decide, by decide⟩

/-- Claim C5 (amended): for every send with N recipients, the `MAIL FROM`
reply triggers the N `RCPT TO` commands in submission order, and then each
consumed `RCPT TO` reply triggers one `DATA` command — N `DATA` commands in
total, not exactly one. -/
theorem c5_theorem (nm efrom m : String) (sz : Nat) (rcpts rcptReplies : List String)
    (hlen : rcptReplies.length = rcpts.length) :
    (runReplies (setEnvelope ⟨efrom, rcpts, sz⟩ (initConn nm)) (m :: rcptReplies)).sentCommands =
      ["MAIL FROM:<" ++ efrom ++ ">"]
        ++ rcpts.map (fun r => "RCPT TO:<" ++ r ++ ">" ++ getDsnRcptToArgs)
        ++ List.replicate rcpts.length "DATA" := by
  rw [runReplies_cons]
  have hp : processReply (setEnvelope ⟨efrom, rcpts, sz⟩ (initConn nm)) m
      = mailLoop rcpts
          ⟨nm, 0, [], [], [], [], [], [], ["MAIL FROM:<" ++ efrom ++ ">"],
            none, false, none, none, false, none⟩ := rfl
  rw [hp, mailLoop_spec]
  rw [rcptPhase rcpts rcptReplies [] _ hlen (by simp) (by simp)]

/-- Claim C5 witness: for the concrete two-recipient send the reply count
matches and the wire sequence is `MAIL FROM`, both `RCPT TO` commands, then
two `DATA` commands. -/
theorem c5_witness :
    (["250 Ok", "550 No"] : List String).length = (["b@y.com", "bad@y.com"] : List String).length ∧
    (runReplies (setEnvelope ⟨"a@x.com", ["b@y.com", "bad@y.com"], 0⟩ (initConn "client"))
        ("250 Ok" :: ["250 Ok", "550 No"])).sentCommands =
      ["MAIL FROM:<" ++ "a@x.com" ++ ">"]
        ++ (["b@y.com", "bad@y.com"] : List String).map
            (fun r => "RCPT TO:<" ++ r ++ ">" ++ getDsnRcptToArgs)
        ++ List.replicate (["b@y.com", "bad@y.com"] : List String).length "DATA" :=
  ⟨by decide,
    c5_theorem "client" "a@x.com" "250 Ok" 0 ["b@y.com", "bad@y.com"] ["250 Ok", "550 No"]
      (by decide)⟩

/-! ### Response pipeline (_onData / _processResponse of src/smtp-connection.js)

Raw socket bytes are modelled as lists of characters (the source decodes
chunks as latin-1 text).  `_onData` splits the remainder plus the chunk on
the regular expression `\r?\n`, keeps the unterminated tail line as the new
remainder, merges continuation lines into the last queued reply, and
triggers `_processResponse` only when the last queued reply is complete;
`_processResponse` then drains the queue, one reply and one shifted handler
per scheduling tick. -/

/-- JavaScript `split` on the regular expression `\r?\n`: a line feed always
ends a piece, a carriage return ends one exactly when followed by a line
feed, every other character is prepended to the first piece of the split of
the rest. -/
def splitCRLF : List Char → List (List Char)
  | [] => [[]]
  | c :: rest =>
    if c = '\n' then [] :: splitCRLF rest
    else if c = '\r' ∧ rest.head? = some '\n' then [] :: splitCRLF rest.tail
    else (c :: (splitCRLF rest).headD []) :: (splitCRLF rest).tail
termination_by l => l.length
decreasing_by
  all_goals simp
  all_goals omega

/-- JavaScript `split` on a plain line feed, used on an already-joined reply
to find its last line. -/
def splitNL : List Char → List (List Char)
  | [] => [[]]
  | c :: rest =>
    if c = '\n' then [] :: splitNL rest
    else (c :: (splitNL rest).headD []) :: (splitNL rest).tail

/-- The continuation-line test of `_onData` (a nonempty digit run followed
by a dash at the start of the line). -/
def isContLine (l : List Char) : Bool :=
  (!(l.takeWhile Char.isDigit).isEmpty) && ((l.dropWhile Char.isDigit).head? == some '-')

/-- JavaScript `lastline.split` on a line feed followed by `pop`: the last
line of a queued reply. -/
def lastLineOf (reply : List Char) : List Char :=
  (splitNL reply).getLastD []

/-- Whether the last line of a queued reply still announces a continuation. -/
def isContTail (reply : List Char) : Bool :=
  isContLine (lastLineOf reply)

/-- One iteration of the `_onData` line loop: a line is newline-joined onto
the last queued reply when that reply still ends in a continuation line,
otherwise pushed as a new reply. -/
def feedLine (queue : List (List Char)) (line : List Char) : List (List Char) :=
  match queue.getLast? with
  | some last =>
    if isContTail last then queue.dropLast ++ [last ++ '\n' :: line]
    else queue ++ [line]
  | none => queue ++ [line]

/-- The whole `_onData` line loop. -/
def feedLines (queue : List (List Char)) : List (List Char) → List (List Char)
  | [] => queue
  | l :: ls => feedLines (feedLine queue l) ls

/-- The parser state: the partial-line remainder and the queue of buffered
replies. -/
structure PipeState where
  remainder : List Char
  responseQueue : List (List Char)
deriving DecidableEq

/-- The tail of `_onData` plus the `_processResponse` drain: when the last
queued reply still ends in a continuation line, keep buffering and dispatch
nothing; otherwise `_processResponse` (rescheduled once per tick) releases
every queued reply in FIFO order, each consuming exactly one handler. -/
def processAfterData (st : PipeState) : PipeState × List (List Char) :=
  match st.responseQueue.getLast? with
  | some last =>
    if isContTail last then (st, [])
    else (⟨st.remainder, []⟩, st.responseQueue)
  | none => (⟨st.remainder, []⟩, st.responseQueue)

/-- `_onData` on one chunk: returns the next parser state and the list of
complete replies released to the handler queue by this chunk. -/
def onData (st : PipeState) (chunk : List Char) : PipeState × List (List Char) :=
  if chunk = [] then (st, [])
  else
    processAfterData
      ⟨(splitCRLF (st.remainder ++ chunk)).getLastD [],
       feedLines st.responseQueue (splitCRLF (st.remainder ++ chunk)).dropLast⟩

/-- Splitting distributes over a CRLF that follows CR-free and LF-free
text. -/
theorem splitCRLF_append_crlf (a b : List Char) (h : ∀ c ∈ a, c ≠ '\r' ∧ c ≠ '\n') :
    splitCRLF (a ++ '\r' :: '\n' :: b) = a :: splitCRLF b := by
  induction a with
  | nil =>
    rw [List.nil_append, splitCRLF]
    simp
  | cons c a ih =>
    have h1 : c ≠ '\r' := (h c (by simp)).1
    have h2 : c ≠ '\n' := (h c (by simp)).2
    have ih2 := ih (fun x hx => h x (by simp [hx]))
    rw [List.cons_append, splitCRLF]
    rw [if_neg h2, if_neg (fun hand => h1 hand.1), ih2]
    simp

/-- Newline splitting of newline-free text. -/
theorem splitNL_all_ne (l : List Char) (h : ∀ c ∈ l, c ≠ '\n') :
    splitNL l = [l] := by
  induction l with
  | nil => rfl
  | cons c a ih =>
    have h1 : c ≠ '\n' := h c (by simp)
    have ih2 := ih (fun x hx => h x (by simp [hx]))
    rw [splitNL, if_neg h1, ih2]
    simp

/-- Newline splitting distributes over a newline following newline-free
text. -/
theorem splitNL_append_nl (a b : List Char) (h : ∀ c ∈ a, c ≠ '\n') :
    splitNL (a ++ '\n' :: b) = a :: splitNL b := by
  induction a with
  | nil =>
    rw [List.nil_append, splitNL]
    simp
  | cons c a ih =>
    have h1 : c ≠ '\n' := h c (by simp)
    have ih2 := ih (fun x hx => h x (by simp [hx]))
    rw [List.cons_append, splitNL, if_neg h1, ih2]
    simp

/-- Claim C6: when a continuation line (digits then a dash) precedes its
terminal line inside one incoming byte sequence, the pipeline enqueues
exactly one reply — the newline-joined concatenation of the two lines — and
releases exactly that one reply to the handler queue, so exactly one handler
is dispatched for it, not two. -/
theorem c6_theorem (cont term : List Char)
    (hc : isContLine cont = true)
    (ht : isContLine term = false)
    (hcf : ∀ c ∈ cont, c ≠ '\r' ∧ c ≠ '\n')
    (htf : ∀ c ∈ term, c ≠ '\r' ∧ c ≠ '\n') :
    onData ⟨[], []⟩ (cont ++ '\r' :: '\n' :: (term ++ ['\r', '\n'])) =
      (⟨[], []⟩, [cont ++ '\n' :: term]) := by
  have hchunk : (cont ++ '\r' :: '\n' :: (term ++ ['\r', '\n'])) ≠ [] := by
    cases cont <;> simp
  have hsplit : splitCRLF ([] ++ (cont ++ '\r' :: '\n' :: (term ++ ['\r', '\n'])))
      = [cont, term, []] := by
    rw [List.nil_append, splitCRLF_append_crlf cont _ hcf,
      splitCRLF_append_crlf term _ htf, splitCRLF]
  have hln : lastLineOf cont = cont := by
    rw [lastLineOf, splitNL_all_ne cont (fun c hx => (hcf c hx).2)]
    rfl
  have hjoin : lastLineOf (cont ++ '\n' :: term) = term := by
    rw [lastLineOf, splitNL_append_nl cont term (fun c hx => (hcf c hx).2),
      splitNL_all_ne term (fun c hx => (htf c hx).2)]
    rfl
  have hct : isContTail cont = true := by rw [isContTail, hln]; exact hc
  have hjt : isContTail (cont ++ '\n' :: term) = false := by
    rw [isContTail, hjoin]; exact ht
  have hf2 : feedLine [cont] term = [cont ++ '\n' :: term] := by
    rw [feedLine]
    simp [hct]
  have hfl : feedLines [] [cont, term] = [cont ++ '\n' :: term] := by
    rw [feedLines, show feedLine [] cont = [cont] from rfl, feedLines, hf2, feedLines]
  rw [onData, if_neg hchunk, hsplit]
  rw [show ([cont, term, []] : List (List Char)).getLastD [] = [] from rfl]
  rw [show ([cont, term, []] : List (List Char)).dropLast = [cont, term] from rfl]
  rw [hfl, processAfterData]
  simp [hjt]

/-- Claim C6 witness: for the concrete pair `250-A` and `250 B` the
hypotheses hold and one single joined reply is released. -/
theorem c6_witness :
    isContLine ['2', '5', '0', '-', 'A'] = true ∧
    isContLine ['2', '5', '0', ' ', 'B'] = false ∧
    (∀ c ∈ (['2', '5', '0', '-', 'A'] : List Char), c ≠ '\r' ∧ c ≠ '\n') ∧
    (∀ c ∈ (['2', '5', '0', ' ', 'B'] : List Char), c ≠ '\r' ∧ c ≠ '\n') ∧
    onData ⟨[], []⟩
        (['2', '5', '0', '-', 'A'] ++ '\r' :: '\n' :: (['2', '5', '0', ' ', 'B'] ++ ['\r', '\n'])) =
      (⟨[], []⟩, [['2', '5', '0', '-', 'A'] ++ '\n' :: ['2', '5', '0', ' ', 'B']]) :=
  ⟨by decide, by decide, by decide, by decide,
    c6_theorem ['2', '5', '0', '-', 'A'] ['2', '5', '0', ' ', 'B']
      (by decide) (by decide) (by decide) (by decide)⟩

/-! ### MIME tree streaming (stream of src/mime-node.js)

`stream` writes the header block plus a blank line, then for a leaf the
encoded content (the quoted-printable/base64 encoders are external
collaborator modules, so a leaf carries its emitted content chunk as an
opaque string), and for a multipart node the `processChildNode` loop:
before each child an opening delimiter built from `this.boundary` (with a
leading CRLF for every child after the first), and after the last child the
closing delimiter with the `--` suffix.  The boundary of a node is fixed
while its own children stream, so every delimiter write of one node uses
one and the same boundary string. -/

/-- The CRLF line terminator. -/
def crlf : String := "\r\n"

/-- `_generateBoundary` of src/mime-node.js (`boundaryPre` models the field
named `boundaryPrefix` in the source). -/
def generateBoundary (boundaryPre base : String) (nodeId : Nat) : String :=
  boundaryPre ++ "-" ++ base ++ "-Part_" ++ toString nodeId

/-- A mime node at streaming time: a leaf with its built header block and
its encoded content chunk, or a multipart node with its header block, its
boundary and its children. -/
inductive MTree where
  | leaf (headerBlock content : String)
  | part (headerBlock boundary : String) (children : List MTree)

mutual

/-- The ordered socket writes of `stream` for one node. -/
def streamWrites : MTree → List String
  | .leaf h c => [h ++ crlf ++ crlf, c]
  | .part h b cs =>
    (h ++ crlf ++ crlf) :: (streamKids b 1 cs ++ [crlf ++ "--" ++ b ++ "--" ++ crlf])

/-- The `processChildNode` loop: before child number i (1-based, as the
post-increment `childId` of the source) write the opening delimiter — with
a leading CRLF for every child but the first — then the writes of the
child. -/
def streamKids (b : String) (i : Nat) : List MTree → List String
  | [] => []
  | c :: rest =>
    ((if 1 < i then crlf else "") ++ "--" ++ b ++ crlf)
      :: (streamWrites c ++ streamKids b (i + 1) rest)

end

/-- Whether a write is a boundary delimiter line of the boundary `b`: the
opening delimiter (with or without its leading CRLF) or the closing
delimiter. -/
def isDelim (b w : String) : Bool :=
  w == "--" ++ b ++ crlf || w == crlf ++ "--" ++ b ++ crlf ||
  w == crlf ++ "--" ++ b ++ "--" ++ crlf

/-- Number of delimiter writes of boundary `b` in a write list. -/
def countDelims (b : String) (ws : List String) : Nat :=
  ws.countP (fun w => isDelim b w)

/-- Each child contributes exactly its opening delimiter when no descendant
write is itself a delimiter of `b`. -/
theorem streamKids_count (b : String) (cs : List MTree) (i : Nat)
    (hc : ∀ c ∈ cs, countDelims b (streamWrites c) = 0) :
    countDelims b (streamKids b i cs) = cs.length := by
  induction cs generalizing i with
  | nil => simp [streamKids, countDelims]
  | cons c rest ih =>
    have hhead : isDelim b ((if 1 < i then crlf else "") ++ "--" ++ b ++ crlf) = true := by
      by_cases h1 : 1 < i <;> simp [h1, isDelim]
    have hch : countDelims b (streamWrites c) = 0 := hc c (by simp)
    have ihr := ih (i + 1) (fun x hx => hc x (by simp [hx]))
    rw [streamKids]
    unfold countDelims at hch ihr ⊢
    rw [List.countP_cons, List.countP_append, hch, ihr]
    simp [hhead]

/-- Claim C7: for every multipart node with N children whose header write is
not itself a delimiter of the node boundary and whose descendants emit no
delimiter of that boundary (the generated boundaries are unique per node),
the streamed write sequence contains exactly N+1 delimiter writes of that
one boundary: one opening delimiter before each child in order, plus the
single closing delimiter with the `--` suffix after the last child. -/
theorem c7_theorem (h b : String) (cs : List MTree)
    (hh : isDelim b (h ++ crlf ++ crlf) = false)
    (hc : ∀ c ∈ cs, countDelims b (streamWrites c) = 0) :
    countDelims b (streamWrites (MTree.part h b cs)) = cs.length + 1 := by
  rw [streamWrites]
  have hclose : isDelim b (crlf ++ "--" ++ b ++ "--" ++ crlf) = true := by
    simp [isDelim]
  have hkids := streamKids_count b cs 1 hc
  unfold countDelims at hkids ⊢
  rw [List.countP_cons, List.countP_append, hkids, List.countP_cons, List.countP_nil]
  simp [hh, hclose]

/-- Claim C7 witness: a root multipart node with a generated boundary and
two leaf children streams exactly three delimiter writes of that boundary. -/
theorem c7_witness :
    isDelim (generateBoundary "--_NmP" "abcdef012345" 1) ("rootheaders" ++ crlf ++ crlf) = false ∧
    (∀ c ∈ [MTree.leaf "h1" "hello", MTree.leaf "h2" "world"],
        countDelims (generateBoundary "--_NmP" "abcdef012345" 1) (streamWrites c) = 0) ∧
    countDelims (generateBoundary "--_NmP" "abcdef012345" 1)
        (streamWrites (MTree.part "rootheaders" (generateBoundary "--_NmP" "abcdef012345" 1)
          [MTree.leaf "h1" "hello", MTree.leaf "h2" "world"]))
      = ([MTree.leaf "h1" "hello", MTree.leaf "h2" "world"] : List MTree).length + 1 := by
  refine ⟨by decide, ?_, ?_⟩
  · intro c hcmem
    simp only [List.mem_cons, List.not_mem_nil, or_false] at hcmem
    rcases hcmem with h | h
    · rw [h, streamWrites]
      decide
    · rw [h, streamWrites]
      decide
  · exact c7_theorem "rootheaders" (generateBoundary "--_NmP" "abcdef012345" 1)
      [MTree.leaf "h1" "hello", MTree.leaf "h2" "world"]
      (by decide)
      (by
        intro c hcmem
        simp only [List.mem_cons, List.not_mem_nil, or_false] at hcmem
        rcases hcmem with h | h
        · rw [h, streamWrites]
          decide
        · rw [h, streamWrites]
          decide)

/-! ### Envelope derivation (getEnvelope of src/mime-node.js)

`getEnvelope` returns the `_envelope` override when one is set, otherwise
scans the ordered header list: a `From` header (or, while no sender was
found yet, a `Reply-To` or `Sender` header) provides the envelope sender,
and `To`/`Cc`/`Bcc` headers are unioned into the recipient list with
de-duplication by normalized address.  Header values are strings, so
`_parseAddresses` reduces to `addressparser`.  The punycode module used by
`_normalizeAddress` is a Node builtin, an external collaborator, so the
whole computation is parameterized over it. -/

/-- JavaScript `lastIndexOf` split of an address at its last at-sign:
`none` when the text holds no at-sign, otherwise the user part and the
domain part. -/
def splitLastAt : List Char → Option (List Char × List Char)
  | [] => none
  | c :: rest =>
    match splitLastAt rest with
    | some (u, d) => some (c :: u, d)
    | none => if c = '@' then some ([], rest) else none

/-- `_normalizeAddress`: trim, keep a bare username untouched, otherwise
keep the user part and hand the lowercased domain to the punycode
collaborator `puny`. -/
def normalizeAddress (puny : String → String) (address : String) : String :=
  let a := jsTrim address
  match splitLastAt a.data with
  | none => a
  | some (u, d) => String.mk u ++ "@" ++ puny (String.mk (d.map Char.toLower))

/-- `_convertAddresses`: normalize each record that carries an address and
append it to the unique list when no record with the same normalized
address is present yet. -/
def convertAddresses (puny : String → String) :
    List AddressRec → List AddressRec → List AddressRec
  | [], uniq => uniq
  | a :: rest, uniq =>
    if a.address ≠ "" then
      let a2 : AddressRec := ⟨a.name, normalizeAddress puny a.address⟩
      if a2.address ≠ "" ∧ (uniq.filter (fun x => x.address = a2.address)).length = 0 then
        convertAddresses puny rest (uniq ++ [a2])
      else convertAddresses puny rest uniq
    else convertAddresses puny rest uniq

/-- The result of `getEnvelope`: the sender (JavaScript `false` modelled as
`none`) and the recipient address list in collection order. -/
structure EnvOut where
  efrom : Option String
  toList : List String
deriving DecidableEq

/-- The header scan of `getEnvelope`: `From` always overwrites the sender,
`Reply-To`/`Sender` provide it only while none was found, recipient headers
accumulate; at the end the collected records are projected to their
addresses. -/
def envelopeScan (puny : String → String) :
    List (String × String) → Option String → List AddressRec → EnvOut
  | [], f, acc => ⟨f, acc.map (fun a => a.address)⟩
  | (k, v) :: rest, f, acc =>
    if k = "From" ∨ (f = none ∧ (k = "Reply-To" ∨ k = "Sender")) then
      match convertAddresses puny (addressparser v) [] with
      | a :: _ => envelopeScan puny rest (some a.address) acc
      | [] => envelopeScan puny rest f acc
    else if k = "To" ∨ k = "Cc" ∨ k = "Bcc" then
      envelopeScan puny rest f (convertAddresses puny (addressparser v) acc)
    else envelopeScan puny rest f acc

/-- The node state `getEnvelope` can observe: the `_envelope` override and
the ordered header list. -/
structure MimeNodeSt where
  envelopeOverride : Option EnvOut
  headers : List (String × String)
deriving DecidableEq

/-- `getEnvelope` with the node state threaded explicitly: the method reads
the override and the headers and writes no field of the node, so the state
comes back unchanged. -/
def getEnvelopeRun (puny : String → String) (n : MimeNodeSt) : EnvOut × MimeNodeSt :=
  match n.envelopeOverride with
  | some e => (e, n)
  | none => (envelopeScan puny n.headers none [], n)

/-- Claim C8: `getEnvelope` is idempotent — it leaves the node state
unchanged, and a second call on the state returned by the first call yields
the same sender and the same recipient list in the same order, for every
node state and every behaviour of the punycode collaborator. -/
theorem c8_theorem (puny : String → String) (n : MimeNodeSt) :
    (getEnvelopeRun puny n).2 = n ∧
    (getEnvelopeRun puny ((getEnvelopeRun puny n).2)).1 = (getEnvelopeRun puny n).1 := by
  obtain ⟨ov, hs⟩ := n
  cases ov with
  | none => exact ⟨rfl, rfl⟩
  | some e => exact ⟨rfl, rfl⟩
